import Mathlib

/-!
Shallow embedding of the Xenomai pse51 (POSIX skin) message queue services
(`src/unnamed/part_000`): the non-blocking primitives `pse51_mq_trysend` and
`pse51_mq_tryrcv`, the blocking loops `pse51_mq_timedsend_inner` and
`pse51_mq_timedrcv_inner`, the entry validation of `mq_timedsend` /
`mq_timedreceive`, and `mq_notify`.

Byte buffers are `List Nat`, machine integers are `Nat`/`Int` with explicit
`% 2^32` where the C code relies on unsigned wraparound.  The nucleus
primitives the file calls (`insertpqf`/`getpq` on the priority message list,
`xnsynch` wait queues, `getq`/`prependq` on the free-slot pool) are not part
of the sources; their disciplines are modelled from the spec where a claim
depends on them, and each such definition says so in its doc comment.
-/

namespace PosixMq

/-- Error codes used by the message queue services (the relevant errno subset). -/
inductive Errno where
  | EPERM
  | EMSGSIZE
  | EAGAIN
  | EINVAL
  | EBUSY
  | EINTR
  | ETIMEDOUT
  | EBADF
  deriving DecidableEq

/-- Permission value of `flags & PSE51_PERMS_MASK` for read-only openers. -/
def O_RDONLY : Nat := 0

/-- Permission value of `flags & PSE51_PERMS_MASK` for write-only openers. -/
def O_WRONLY : Nat := 1

/-- Permission value of `flags & PSE51_PERMS_MASK` for read-write openers. -/
def O_RDWR : Nat := 2

/-- Queue attributes fixed at creation (`struct mq_attr`): maximum number of
messages and maximum message size in bytes. -/
structure MqAttr where
  mq_maxmsg : Nat
  mq_msgsize : Nat
  deriving DecidableEq

/-- An enqueued message slot (`pse51_msg_t` linked in `mq->queued`): the copied
payload bytes, the stored length `msg->len`, and the priority recorded in the
priority-list link at `insertpqf` time. -/
structure Msg where
  data : List Nat
  len : Nat
  prio : Nat
  deriving DecidableEq

/-- A thread blocked on one of the queue's `xnsynch` wait queues: its identity
and its scheduling priority (the sort key of the XNSYNCH_PRIO discipline). -/
structure Waiter where
  tid : Nat
  wprio : Nat
  deriving DecidableEq

/-- State of one `pse51_mq_t`.  `queued` is the priority message list (head =
next message a receiver takes), `avail` the number of free slots in the
fixed pool `mq->avail`, `receivers`/`senders` the two wait queues ordered by
thread priority (each waiting receiver is a pse51 thread that published a
`pse51_direct_msg_t` scratch before sleeping, as `pse51_mq_timedrcv_inner`
does), and `target`/`si_signo`/`si_value` the `mq_notify` registration. -/
structure MqState where
  attr : MqAttr
  queued : List Msg
  avail : Nat
  receivers : List Waiter
  senders : List Waiter
  target : Option Nat
  si_signo : Int
  si_value : Nat
  deriving DecidableEq

/-- A descriptor's runtime flag word split into the permission bits
(`flags & PSE51_PERMS_MASK`) and the O_NONBLOCK bit. -/
structure Desc where
  perms : Nat
  nonblock : Bool
  deriving DecidableEq

/-- Modelled from the spec: `insertpqf` of the nucleus priority queue
(`nucleus/queue.h`, not under the sources).  The pending-message list is
ordered by strictly descending priority; an insertion at an
equal-to-existing priority goes behind the existing same-priority entries
(FIFO within a priority band), i.e. the new element is placed before the
first element of strictly lower priority. -/
def insertpqf (q : List Msg) (m : Msg) : List Msg :=
  match q with
  | [] => [m]
  | x :: xs => if x.prio < m.prio then m :: x :: xs else x :: insertpqf xs m

/-- Direct handoff record: what `pse51_mq_trysend` writes through the woken
receiver's published `pse51_direct_msg_t` (payload into `msg->buf`, length
into `*lenp`, priority into `*priop`); the presence of such a record models
`msg->used = 1`. -/
structure Handoff where
  tid : Nat
  buf : List Nat
  lenp : Nat
  priop : Nat
  deriving DecidableEq

/-- Result of `pse51_mq_trysend`: returned error (none = 0), queue state after
the call, the direct handoff performed if any, the notifier firing if any
(target thread, si_signo, si_value), and whether `xnpod_schedule` was
requested. -/
structure SendRes where
  err : Option Errno
  st : MqState
  handoff : Option Handoff
  fired : Option (Nat × Int × Nat)
  resched : Bool
  deriving DecidableEq

/-- Embedding of `pse51_mq_trysend`.  Checks write permission, then the length
bound; wakes one receiver (head of the priority-ordered wait queue, modelled
from the spec for `xnsynch_wakeup_one_sleeper`) and performs the direct
handoff if a receiver was waiting, else allocates a slot from the pool
(EAGAIN on exhaustion), copies `len` bytes, enqueues at `prio` with
`insertpqf`, and fires the one-shot notifier when the queue count became 1
with no receiver woken and a registration present. -/
def pse51_mq_trysend (desc : Desc) (buffer : List Nat) (len : Nat) (prio : Nat)
    (st : MqState) : SendRes :=
  if desc.perms ≠ O_WRONLY ∧ desc.perms ≠ O_RDWR then
    ⟨some .EPERM, st, none, none, false⟩
  else if len > st.attr.mq_msgsize then
    ⟨some .EMSGSIZE, st, none, none, false⟩
  else
    match st.receivers with
    | r :: rs =>
        ⟨none, { st with receivers := rs },
         some ⟨r.tid, buffer.take len, len, prio⟩, none, true⟩
    | [] =>
        if st.avail = 0 then
          ⟨some .EAGAIN, st, none, none, false⟩
        else
          let q := insertpqf st.queued ⟨buffer.take len, len, prio⟩
          match st.target with
          | some t =>
              if q.length = 1 then
                ⟨none, { st with queued := q, avail := st.avail - 1, target := none },
                 none, some (t, st.si_signo, st.si_value), false⟩
              else
                ⟨none, { st with queued := q, avail := st.avail - 1 },
                 none, none, false⟩
          | none =>
              ⟨none, { st with queued := q, avail := st.avail - 1 },
               none, none, false⟩

/-- Result of `pse51_mq_tryrcv`: returned error (none = 0), queue state after
the call, bytes copied to the caller's buffer, the value written to `*lenp`
(unchanged input on failure), the value written to `*priop`, and whether a
sender was woken (`xnpod_schedule` requested). -/
structure RecvRes where
  err : Option Errno
  st : MqState
  buf : List Nat
  lenp : Nat
  priop : Nat
  resched : Bool
  deriving DecidableEq

/-- Embedding of `pse51_mq_tryrcv`.  Checks read permission, then that the
supplied buffer length is at least the configured `mq_msgsize`; pops the
head of the priority list (EAGAIN when empty, `getpq` modelled from the
spec), copies the stored payload, writes `msg->len` to `*lenp` and the
recorded priority to `*priop`, frees the slot back to the pool and wakes one
blocked sender. -/
def pse51_mq_tryrcv (desc : Desc) (lenp : Nat) (st : MqState) : RecvRes :=
  if desc.perms ≠ O_RDONLY ∧ desc.perms ≠ O_RDWR then
    ⟨some .EPERM, st, [], lenp, 0, false⟩
  else if lenp < st.attr.mq_msgsize then
    ⟨some .EMSGSIZE, st, [], lenp, 0, false⟩
  else
    match st.queued with
    | [] => ⟨some .EAGAIN, st, [], lenp, 0, false⟩
    | m :: rest =>
        ⟨none,
         { st with queued := rest, avail := st.avail + 1,
                   senders := st.senders.tail },
         m.data, m.len, m.prio, !st.senders.isEmpty⟩

/-- Cause with which a sleep on a wait queue ends, as `pse51_mq_timedsend_inner`
and `pse51_mq_timedrcv_inner` observe it after `xnsynch_sleep_on` returns:
`removed` for XNRMID, `timedout` for XNTIMEO, `interrupted` for XNBREAK,
`used` for a normal wake with the published direct-handoff scratch marked
used by a sender, and `normal` for any other wake.  Modelled from the spec:
wake causes are mutually exclusive (spec 4.E.3; the XN* flag bits live in
nucleus code outside the sources). -/
inductive Wake where
  | normal
  | timedout
  | interrupted
  | removed
  | used
  deriving DecidableEq

/-- Outcome of one iteration of a blocking loop: return an errno (none = 0,
success) or go around the loop again. -/
inductive LoopStep where
  | ret (e : Option Errno)
  | again
  deriving DecidableEq

/-- One iteration of the `pse51_mq_timedsend_inner` loop.  `tryRes` is what
`pse51_mq_trysend` returned this time around, `clockErr` what
`clock_adjust_timeout` returned, `wake` the cause with which the sleep on
`mq->senders` ended.  A non-EAGAIN try result is returned as is; on EAGAIN a
non-blocking descriptor returns it, an unblockable context returns EPERM,
and after the sleep XNBREAK maps to EINTR, XNTIMEO to ETIMEDOUT, XNRMID to
EBADF, and a normal wake re-attempts the send. -/
def timedsend_step (nonblock unblockable : Bool) (tryRes : Option Errno)
    (clockErr : Option Errno) (wake : Wake) : LoopStep :=
  if tryRes ≠ some .EAGAIN then .ret tryRes
  else if nonblock then .ret tryRes
  else if unblockable then .ret (some .EPERM)
  else
    match clockErr with
    | some e => .ret (some e)
    | none =>
        match wake with
        | .interrupted => .ret (some .EINTR)
        | .timedout => .ret (some .ETIMEDOUT)
        | .removed => .ret (some .EBADF)
        | _ => .again

/-- One iteration of the `pse51_mq_timedrcv_inner` loop.  As for the send side,
but after the sleep on `mq->receivers` the code first checks
`direct & msg.used` (direct handoff consumed: success), then XNRMID → EBADF,
XNTIMEO → ETIMEDOUT, XNBREAK → EINTR, and loops on a normal wake. -/
def timedrcv_step (nonblock unblockable : Bool) (tryRes : Option Errno)
    (clockErr : Option Errno) (wake : Wake) : LoopStep :=
  if tryRes ≠ some .EAGAIN then .ret tryRes
  else if nonblock then .ret tryRes
  else if unblockable then .ret (some .EPERM)
  else
    match clockErr with
    | some e => .ret (some e)
    | none =>
        match wake with
        | .used => .ret none
        | .removed => .ret (some .EBADF)
        | .timedout => .ret (some .ETIMEDOUT)
        | .interrupted => .ret (some .EINTR)
        | _ => .again

/-- The `pse51_mq_timedsend_inner` loop over a trace of per-iteration
environment observations (try result, clock conversion result, wake cause);
none means the trace ended with the loop still going. -/
def timedsend_inner (nonblock unblockable : Bool) :
    List (Option Errno × Option Errno × Wake) → Option (Option Errno)
  | [] => none
  | (t, c, w) :: rest =>
      match timedsend_step nonblock unblockable t c w with
      | .ret e => some e
      | .again => timedsend_inner nonblock unblockable rest

/-- The `pse51_mq_timedrcv_inner` loop over a trace of per-iteration
environment observations. -/
def timedrcv_inner (nonblock unblockable : Bool) :
    List (Option Errno × Option Errno × Wake) → Option (Option Errno)
  | [] => none
  | (t, c, w) :: rest =>
      match timedrcv_step nonblock unblockable t c w with
      | .ret e => some e
      | .again => timedrcv_inner nonblock unblockable rest

/-- Modelled from the spec: the `ONE_BILLION` constant of `posix/internal.h`
(not under the sources), the nanoseconds-per-second bound 10^9. -/
def ONE_BILLION : Nat := 1000000000

/-- Entry validation of `mq_timedsend`: the C code computes
`(unsigned) abs_timeout->tv_nsec > ONE_BILLION` (a cast of the signed field
to a 32-bit unsigned, then a strict comparison) and fails with EINVAL when
it holds. -/
def mq_timedsend_nsec_invalid (tv_nsec : Int) : Bool :=
  ((tv_nsec % 4294967296).toNat) > ONE_BILLION

/-- Entry validation of `mq_timedreceive`, identical to the send side:
`(unsigned) abs_timeout->tv_nsec > ONE_BILLION`. -/
def mq_timedreceive_nsec_invalid (tv_nsec : Int) : Bool :=
  ((tv_nsec % 4294967296).toNat) > ONE_BILLION

/-- SIGEV_SIGNAL delivery mode of `struct sigevent`. -/
def SIGEV_SIGNAL : Nat := 0

/-- SIGEV_NONE delivery mode of `struct sigevent`. -/
def SIGEV_NONE : Nat := 1

/-- Notification spec (`struct sigevent`): delivery mode, signal number
(a C int) and accompanying value. -/
structure Sigevent where
  sigev_notify : Nat
  sigev_signo : Int
  sigev_value : Nat
  deriving DecidableEq

/-- Validation of a non-null sigevent in `mq_notify`: the C code rejects when
`sigev_notify` is neither SIGEV_SIGNAL nor SIGEV_NONE, or when
`(unsigned) (sigev_signo - 1) > SIGRTMAX - 1` (a signed subtraction cast to
32-bit unsigned, compared against the promoted `SIGRTMAX - 1`).  `sigrtmax`
is the skin's SIGRTMAX, a parameter here since its header is not under the
sources. -/
def sigev_invalid (sigrtmax : Nat) (e : Sigevent) : Bool :=
  (e.sigev_notify != SIGEV_SIGNAL && e.sigev_notify != SIGEV_NONE) ||
    (sigrtmax - 1 < ((e.sigev_signo - 1) % 4294967296).toNat)

/-- Embedding of `mq_notify` at the queue level (valid descriptor, caller a
pse51 thread in a synchronous context; the EPERM/EBADF paths on those
lookups precede everything modelled here).  An invalid sigevent yields
EINVAL before the registration state is read; a registration held by a
different thread yields EBUSY and changes nothing; a null sigevent or
SIGEV_NONE clears the registration; otherwise the caller is installed with
the given signo and value. -/
def mq_notify (sigrtmax : Nat) (caller : Nat) (evp : Option Sigevent)
    (st : MqState) : Option Errno × MqState :=
  if (match evp with
      | some e => sigev_invalid sigrtmax e
      | none => false) then
    (some .EINVAL, st)
  else if (match st.target with
           | some t => t != caller
           | none => false) then
    (some .EBUSY, st)
  else
    match evp with
    | none => (none, { st with target := none })
    | some e =>
        if e.sigev_notify = SIGEV_NONE then
          (none, { st with target := none })
        else
          (none, { st with target := some caller,
                           si_signo := e.sigev_signo,
                           si_value := e.sigev_value })

/-- The priority-list ordering invariant maintained by `insertpqf`: priorities
are non-increasing from head to tail. -/
abbrev sortedDown (q : List Msg) : Prop :=
  q.Pairwise (fun a b => b.prio ≤ a.prio)

/-- Enqueue a list of messages in order into an initially empty priority list. -/
def enqueueAll (msgs : List Msg) : List Msg :=
  msgs.foldl insertpqf []

/-- Chain of `pse51_mq_trysend` calls, keeping the successive states. -/
def sendSeq (d : Desc) (xs : List (List Nat × Nat)) (st : MqState) : MqState :=
  xs.foldl (fun s x => (pse51_mq_trysend d x.1 x.1.length x.2 s).st) st

/-- Chain of `n` `pse51_mq_tryrcv` calls, collecting (payload, priority). -/
def recvSeq : Nat → Desc → Nat → MqState → List (List Nat × Nat)
  | 0, _, _, _ => []
  | n + 1, d, lenp, st =>
      let r := pse51_mq_tryrcv d lenp st
      (r.buf, r.priop) :: recvSeq n d lenp r.st

theorem insertpqf_length (q : List Msg) (m : Msg) :
    (insertpqf q m).length = q.length + 1 := by
  induction q with
  | nil => rfl
  | cons x xs ih =>
      simp only [insertpqf]
      split
      · simp
      · simp [ih]

theorem insertpqf_perm (q : List Msg) (m : Msg) :
    (insertpqf q m).Perm (m :: q) := by
  induction q with
  | nil => exact List.Perm.refl _
  | cons x xs ih =>
      simp only [insertpqf]
      split
      · exact List.Perm.refl _
      · exact (ih.cons x).trans (List.Perm.swap m x xs)

theorem mem_insertpqf {q : List Msg} {m y : Msg} :
    y ∈ insertpqf q m ↔ y = m ∨ y ∈ q := by
  rw [(insertpqf_perm q m).mem_iff]
  simp

theorem insertpqf_sorted {q : List Msg} (m : Msg) (h : sortedDown q) :
    sortedDown (insertpqf q m) := by
  induction q with
  | nil => simp [insertpqf, sortedDown]
  | cons x xs ih =>
      rw [sortedDown, List.pairwise_cons] at h
      simp only [insertpqf]
      split
      · rename_i hx
        rw [sortedDown, List.pairwise_cons]
        constructor
        · intro y hy
          rcases List.mem_cons.mp hy with rfl | hy
          · exact Nat.le_of_lt hx
          · exact Nat.le_trans (h.1 y hy) (Nat.le_of_lt hx)
        · exact List.Pairwise.cons h.1 h.2
      · rename_i hx
        rw [sortedDown, List.pairwise_cons]
        constructor
        · intro y hy
          rcases mem_insertpqf.mp hy with rfl | hy
          · exact Nat.le_of_not_lt hx
          · exact h.1 y hy
        · exact ih h.2

theorem insertpqf_filter {q : List Msg} (m : Msg) (p : Nat) (h : sortedDown q) :
    (insertpqf q m).filter (fun x => x.prio == p)
      = q.filter (fun x => x.prio == p)
        ++ (if m.prio = p then [m] else []) := by
  induction q with
  | nil =>
      simp only [insertpqf, List.filter_cons, List.filter_nil]
      by_cases hp : m.prio = p <;> simp [hp]
  | cons x xs ih =>
      rw [sortedDown, List.pairwise_cons] at h
      simp only [insertpqf]
      split
      · rename_i hx
        by_cases hp : m.prio = p
        · have hnil : (x :: xs).filter (fun y => y.prio == p) = [] := by
            rw [List.filter_eq_nil_iff]
            intro a ha
            rcases List.mem_cons.mp ha with rfl | ha
            · simp only [beq_iff_eq]
              omega
            · have := h.1 a ha
              simp only [beq_iff_eq]
              omega
          simp [List.filter_cons, hp, hnil]
        · simp [List.filter_cons, hp]
      · by_cases hxp : x.prio = p <;>
          simp [List.filter_cons, hxp, ih h.2]

theorem foldl_insertpqf_sorted (msgs : List Msg) :
    ∀ acc : List Msg, sortedDown acc →
      sortedDown (msgs.foldl insertpqf acc) := by
  induction msgs with
  | nil => intro acc h; exact h
  | cons m ms ih =>
      intro acc h
      exact ih (insertpqf acc m) (insertpqf_sorted m h)

theorem foldl_insertpqf_perm (msgs : List Msg) :
    ∀ acc : List Msg, (msgs.foldl insertpqf acc).Perm (acc ++ msgs) := by
  induction msgs with
  | nil => intro acc; simp
  | cons m ms ih =>
      intro acc
      have h1 := ih (insertpqf acc m)
      have h2 : (insertpqf acc m ++ ms).Perm (acc ++ m :: ms) := by
        have := (insertpqf_perm acc m).append_right ms
        refine this.trans ?_
        simp only [List.cons_append]
        exact (List.perm_middle).symm
      exact h1.trans h2

theorem foldl_insertpqf_filter (msgs : List Msg) (p : Nat) :
    ∀ acc : List Msg, sortedDown acc →
      (msgs.foldl insertpqf acc).filter (fun x => x.prio == p)
        = acc.filter (fun x => x.prio == p)
          ++ msgs.filter (fun x => x.prio == p) := by
  induction msgs with
  | nil => intro acc _; simp
  | cons m ms ih =>
      intro acc h
      simp only [List.foldl_cons]
      rw [ih (insertpqf acc m) (insertpqf_sorted m h), insertpqf_filter m p h]
      by_cases hp : m.prio = p
      · have : (m.prio == p) = true := by simp [hp]
        simp [List.filter_cons, this, hp]
      · have : (m.prio == p) = false := by simp [hp]
        simp [List.filter_cons, this, hp]

/-- Read-write descriptor used by the concrete scenarios. -/
def mqC1Desc : Desc := ⟨O_RDWR, false⟩

/-- Empty queue with `mq_maxmsg = 4`, `mq_msgsize = 32`, all four slots free,
no waiters, no notifier. -/
def mqC1Empty : MqState := ⟨⟨4, 32⟩, [], 4, [], [], none, 0, 0⟩

/-- The queue after sending A(65)/prio 1, B(66)/prio 3, C(67)/prio 2,
D(68)/prio 3 into `mqC1Empty`. -/
def mqC1Loaded : MqState :=
  sendSeq mqC1Desc [([65], 1), ([66], 3), ([67], 2), ([68], 3)] mqC1Empty

/-- C1: messages are delivered in priority order.  The priority list built by
`insertpqf` is always sorted by descending priority, is a permutation of the
messages sent, and within each priority band preserves the enqueue (FIFO)
order; a successful `pse51_mq_tryrcv` returns the head of the list, which
has maximal priority among all pending messages; and the concrete scenario
A/1, B/3, C/2, D/3 is received as B, D, C, A. -/
theorem mq_priority_delivery_order :
    (∀ msgs : List Msg, sortedDown (enqueueAll msgs)) ∧
    (∀ msgs : List Msg, (enqueueAll msgs).Perm msgs) ∧
    (∀ (msgs : List Msg) (p : Nat),
        (enqueueAll msgs).filter (fun x => x.prio == p)
          = msgs.filter (fun x => x.prio == p)) ∧
    (∀ (d : Desc) (lenp : Nat) (st : MqState) (m : Msg) (rest : List Msg),
        (d.perms = O_RDONLY ∨ d.perms = O_RDWR) →
        st.attr.mq_msgsize ≤ lenp →
        st.queued = m :: rest →
        sortedDown st.queued →
        (pse51_mq_tryrcv d lenp st).err = none ∧
        (pse51_mq_tryrcv d lenp st).buf = m.data ∧
        (pse51_mq_tryrcv d lenp st).priop = m.prio ∧
        (pse51_mq_tryrcv d lenp st).st.queued = rest ∧
        ∀ x ∈ st.queued, x.prio ≤ m.prio) ∧
    recvSeq 4 mqC1Desc 32 mqC1Loaded
      = [([66], 3), ([68], 3), ([67], 2), ([65], 1)] := by
  refine ⟨?_, ?_, ?_, ?_, ?_⟩
  · intro msgs
    exact foldl_insertpqf_sorted msgs [] (by simp)
  · intro msgs
    simpa using foldl_insertpqf_perm msgs []
  · intro msgs p
    simpa using foldl_insertpqf_filter msgs p [] (by simp)
  · intro d lenp st m rest hperm hlen hq hsort
    have h1 : ¬(d.perms ≠ O_RDONLY ∧ d.perms ≠ O_RDWR) := by
      rcases hperm with h | h <;> simp [h]
    have h2 : ¬(lenp < st.attr.mq_msgsize) := by omega
    have hres : pse51_mq_tryrcv d lenp st =
        ⟨none,
         { st with queued := rest, avail := st.avail + 1,
                   senders := st.senders.tail },
         m.data, m.len, m.prio, !st.senders.isEmpty⟩ := by
      simp only [pse51_mq_tryrcv, if_neg h1, if_neg h2, hq]
    rw [hres]
    refine ⟨rfl, rfl, rfl, rfl, ?_⟩
    intro x hx
    rw [hq] at hx
    rw [hq] at hsort
    rcases List.mem_cons.mp hx with rfl | hx
    · exact Nat.le_refl _
    · exact (List.pairwise_cons.mp hsort).1 x hx
  · decide

/-- Witness for C1 at the concrete loaded queue: the first receive succeeds
and returns payload B(66) with priority 3. -/
theorem mq_priority_delivery_order_witness :
    (pse51_mq_tryrcv mqC1Desc 32 mqC1Loaded).err = none ∧
    (pse51_mq_tryrcv mqC1Desc 32 mqC1Loaded).buf = [66] ∧
    (pse51_mq_tryrcv mqC1Desc 32 mqC1Loaded).priop = 3 := by
  have h := mq_priority_delivery_order.2.2.2.1 mqC1Desc 32 mqC1Loaded
      ⟨[66], 1, 3⟩ [⟨[68], 1, 3⟩, ⟨[67], 1, 2⟩, ⟨[65], 1, 1⟩]
      (Or.inr rfl) (by decide) (by decide) (by decide)
  exact ⟨h.1, h.2.1, h.2.2.1⟩

theorem trysend_cases (d : Desc) (buffer : List Nat) (len prio : Nat)
    (st : MqState) :
    (d.perms ≠ O_WRONLY ∧ d.perms ≠ O_RDWR ∧
      pse51_mq_trysend d buffer len prio st
        = ⟨some .EPERM, st, none, none, false⟩) ∨
    ((d.perms = O_WRONLY ∨ d.perms = O_RDWR) ∧ len > st.attr.mq_msgsize ∧
      pse51_mq_trysend d buffer len prio st
        = ⟨some .EMSGSIZE, st, none, none, false⟩) ∨
    ((d.perms = O_WRONLY ∨ d.perms = O_RDWR) ∧ len ≤ st.attr.mq_msgsize ∧
      (∃ r rs, st.receivers = r :: rs ∧
        pse51_mq_trysend d buffer len prio st
          = ⟨none, { st with receivers := rs },
             some ⟨r.tid, buffer.take len, len, prio⟩, none, true⟩)) ∨
    ((d.perms = O_WRONLY ∨ d.perms = O_RDWR) ∧ len ≤ st.attr.mq_msgsize ∧
      st.receivers = [] ∧ st.avail = 0 ∧
      pse51_mq_trysend d buffer len prio st
        = ⟨some .EAGAIN, st, none, none, false⟩) ∨
    ((d.perms = O_WRONLY ∨ d.perms = O_RDWR) ∧ len ≤ st.attr.mq_msgsize ∧
      st.receivers = [] ∧ 0 < st.avail ∧ st.queued = [] ∧
      (∃ t, st.target = some t ∧
        pse51_mq_trysend d buffer len prio st
          = ⟨none,
             { st with queued := insertpqf st.queued ⟨buffer.take len, len, prio⟩,
                       avail := st.avail - 1, target := none },
             none, some (t, st.si_signo, st.si_value), false⟩)) ∨
    ((d.perms = O_WRONLY ∨ d.perms = O_RDWR) ∧ len ≤ st.attr.mq_msgsize ∧
      st.receivers = [] ∧ 0 < st.avail ∧
      (st.queued ≠ [] ∨ st.target = none) ∧
      pse51_mq_trysend d buffer len prio st
        = ⟨none,
           { st with queued := insertpqf st.queued ⟨buffer.take len, len, prio⟩,
                     avail := st.avail - 1 },
           none, none, false⟩) := by
  by_cases hp : d.perms ≠ O_WRONLY ∧ d.perms ≠ O_RDWR
  · exact Or.inl ⟨hp.1, hp.2, by simp only [pse51_mq_trysend, if_pos hp]⟩
  · have hp' : d.perms = O_WRONLY ∨ d.perms = O_RDWR := by
      by_cases h : d.perms = O_WRONLY
      · exact Or.inl h
      · refine Or.inr ?_
        by_contra h2
        exact hp ⟨h, h2⟩
    by_cases hl : len > st.attr.mq_msgsize
    · exact Or.inr (Or.inl ⟨hp', hl,
        by simp only [pse51_mq_trysend, if_neg hp, if_pos hl]⟩)
    · have hl' : len ≤ st.attr.mq_msgsize := Nat.le_of_not_lt hl
      cases hrcv : st.receivers with
      | cons r rs =>
          refine Or.inr (Or.inr (Or.inl ⟨hp', hl', r, rs, rfl, ?_⟩))
          simp only [pse51_mq_trysend, if_neg hp, if_neg hl, hrcv]
      | nil =>
          by_cases ha : st.avail = 0
          · refine Or.inr (Or.inr (Or.inr (Or.inl ⟨hp', hl', rfl, ha, ?_⟩)))
            simp only [pse51_mq_trysend, if_neg hp, if_neg hl, hrcv, if_pos ha]
          · have ha' : 0 < st.avail := Nat.pos_of_ne_zero ha
            cases ht : st.target with
            | none =>
                refine Or.inr (Or.inr (Or.inr (Or.inr (Or.inr
                  ⟨hp', hl', rfl, ha', Or.inr rfl, ?_⟩))))
                simp only [pse51_mq_trysend, if_neg hp, if_neg hl, hrcv,
                  if_neg ha, ht]
            | some t =>
                by_cases hq : st.queued = []
                · refine Or.inr (Or.inr (Or.inr (Or.inr (Or.inl
                    ⟨hp', hl', rfl, ha', hq, t, rfl, ?_⟩))))
                  have hlen1 :
                      (insertpqf st.queued ⟨buffer.take len, len, prio⟩).length
                        = 1 := by
                    rw [insertpqf_length, hq]
                    rfl
                  simp only [pse51_mq_trysend, if_neg hp, if_neg hl, hrcv,
                    if_neg ha, ht, if_pos hlen1]
                · refine Or.inr (Or.inr (Or.inr (Or.inr (Or.inr
                    ⟨hp', hl', rfl, ha', Or.inl hq, ?_⟩))))
                  have hlen1 :
                      (insertpqf st.queued ⟨buffer.take len, len, prio⟩).length
                        ≠ 1 := by
                    rw [insertpqf_length]
                    have := List.length_eq_zero (l := st.queued)
                    intro hc
                    exact hq (this.mp (by omega))
                  simp only [pse51_mq_trysend, if_neg hp, if_neg hl, hrcv,
                    if_neg ha, ht, if_neg hlen1]

/-- A send into a queue whose notifier registration is clear never fires a
notification. -/
theorem trysend_no_target_no_fire (d : Desc) (buffer : List Nat)
    (len prio : Nat) (st : MqState) (h : st.target = none) :
    (pse51_mq_trysend d buffer len prio st).fired = none := by
  rcases trysend_cases d buffer len prio st with
    ⟨_, _, hres⟩ | ⟨_, _, hres⟩ | ⟨_, _, r, rs, _, hres⟩ |
    ⟨_, _, _, _, hres⟩ | ⟨_, _, _, _, _, t, ht, hres⟩ |
    ⟨_, _, _, _, _, hres⟩ <;> rw [hres]
  rw [h] at ht
  cases ht

/-- Queue with two free slots, two priority-ordered waiting receivers and a
registered notifier, used as the C2 witness scenario. -/
def mqC2State : MqState := ⟨⟨2, 8⟩, [], 2, [⟨10, 7⟩, ⟨11, 3⟩], [], some 42, 33, 5⟩

/-- C2: when a receiver is blocked on the wait queue, a permitted, size-checked
`pse51_mq_trysend` wakes the highest-priority waiter, copies payload, length
and priority into its published direct-handoff buffers (marking it used),
allocates no slot, leaves the free count, pending list and notifier
registration untouched, fires nothing, and requests a reschedule. -/
theorem mq_trysend_direct_handoff :
    ∀ (d : Desc) (buffer : List Nat) (len prio : Nat) (st : MqState)
      (r : Waiter) (rs : List Waiter),
      st.receivers = r :: rs →
      (d.perms = O_WRONLY ∨ d.perms = O_RDWR) →
      len ≤ st.attr.mq_msgsize →
      st.receivers.Pairwise (fun a b => b.wprio ≤ a.wprio) →
      (pse51_mq_trysend d buffer len prio st).err = none ∧
      (pse51_mq_trysend d buffer len prio st).handoff
        = some ⟨r.tid, buffer.take len, len, prio⟩ ∧
      (∀ w ∈ st.receivers, w.wprio ≤ r.wprio) ∧
      (pse51_mq_trysend d buffer len prio st).st.avail = st.avail ∧
      (pse51_mq_trysend d buffer len prio st).st.queued = st.queued ∧
      (pse51_mq_trysend d buffer len prio st).fired = none ∧
      (pse51_mq_trysend d buffer len prio st).st.target = st.target ∧
      (pse51_mq_trysend d buffer len prio st).st.receivers = rs ∧
      (pse51_mq_trysend d buffer len prio st).resched = true := by
  intro d buffer len prio st r rs hrcv hperm hlen hsort
  have hp : ¬(d.perms ≠ O_WRONLY ∧ d.perms ≠ O_RDWR) := by
    rcases hperm with h | h <;> simp [h]
  have hl : ¬(len > st.attr.mq_msgsize) := by omega
  have hres : pse51_mq_trysend d buffer len prio st =
      ⟨none, { st with receivers := rs },
       some ⟨r.tid, buffer.take len, len, prio⟩, none, true⟩ := by
    simp only [pse51_mq_trysend, if_neg hp, if_neg hl, hrcv]
  rw [hres]
  refine ⟨rfl, rfl, ?_, rfl, rfl, rfl, rfl, rfl, rfl⟩
  intro w hw
  rw [hrcv] at hw hsort
  rcases List.mem_cons.mp hw with rfl | hw
  · exact Nat.le_refl _
  · exact (List.pairwise_cons.mp hsort).1 w hw

/-- Witness for C2: a write-only send of two bytes into `mqC2State` hands the
payload, length and priority to waiter 10 (the higher-priority one), fires
no notifier even though one is registered, and leaves both free slots. -/
theorem mq_trysend_direct_handoff_witness :
    (pse51_mq_trysend ⟨O_WRONLY, false⟩ [104, 105] 2 5 mqC2State).handoff
      = some ⟨10, [104, 105], 2, 5⟩ ∧
    (pse51_mq_trysend ⟨O_WRONLY, false⟩ [104, 105] 2 5 mqC2State).fired
      = none ∧
    (pse51_mq_trysend ⟨O_WRONLY, false⟩ [104, 105] 2 5 mqC2State).st.avail
      = 2 := by
  have h := mq_trysend_direct_handoff ⟨O_WRONLY, false⟩ [104, 105] 2 5
      mqC2State ⟨10, 7⟩ [⟨11, 3⟩] rfl (Or.inl rfl) (by decide) (by decide)
  exact ⟨h.2.1, h.2.2.2.2.2.1, h.2.2.2.1⟩

/-- C5: `pse51_mq_trysend` fails EPERM exactly when the permission bits are
neither write-only nor read-write; with permission, fails EMSGSIZE exactly
when `len` exceeds the configured `mq_msgsize`; with permission, a fitting
length and no waiting receiver, fails EAGAIN exactly when the pool is empty;
EAGAIN arises only from pool exhaustion with no receiver waiting; and every
failure leaves the queue state unchanged with no handoff and no notifier
firing. -/
theorem mq_trysend_error_conditions :
    ∀ (d : Desc) (buffer : List Nat) (len prio : Nat) (st : MqState),
      ((pse51_mq_trysend d buffer len prio st).err = some .EPERM ↔
        (d.perms ≠ O_WRONLY ∧ d.perms ≠ O_RDWR)) ∧
      ((d.perms = O_WRONLY ∨ d.perms = O_RDWR) →
        ((pse51_mq_trysend d buffer len prio st).err = some .EMSGSIZE ↔
          len > st.attr.mq_msgsize)) ∧
      ((d.perms = O_WRONLY ∨ d.perms = O_RDWR) →
        len ≤ st.attr.mq_msgsize → st.receivers = [] →
        ((pse51_mq_trysend d buffer len prio st).err = some .EAGAIN ↔
          st.avail = 0)) ∧
      ((pse51_mq_trysend d buffer len prio st).err = some .EAGAIN →
        st.receivers = [] ∧ st.avail = 0) ∧
      ((pse51_mq_trysend d buffer len prio st).err ≠ none →
        (pse51_mq_trysend d buffer len prio st).st = st ∧
        (pse51_mq_trysend d buffer len prio st).handoff = none ∧
        (pse51_mq_trysend d buffer len prio st).fired = none) := by
  intro d buffer len prio st
  rcases trysend_cases d buffer len prio st with
    ⟨hp1, hp2, hres⟩ | ⟨hperm, hlen, hres⟩ | ⟨hperm, hlen, r, rs, hrcv, hres⟩ |
    ⟨hperm, hlen, hrcv, ha, hres⟩ | ⟨hperm, hlen, hrcv, ha, hq, t, ht, hres⟩ |
    ⟨hperm, hlen, hrcv, ha, hor, hres⟩ <;> rw [hres]
  · refine ⟨by simp [hp1, hp2], ?_, ?_, by simp, fun _ => ⟨rfl, rfl, rfl⟩⟩
    · intro hperm
      rcases hperm with h | h
      · exact absurd h hp1
      · exact absurd h hp2
    · intro hperm
      rcases hperm with h | h
      · exact absurd h hp1
      · exact absurd h hp2
  · refine ⟨?_, fun _ => by simp [hlen], fun _ hl _ => by omega,
      by simp, fun _ => ⟨rfl, rfl, rfl⟩⟩
    constructor
    · intro h
      cases h
    · intro h
      rcases hperm with hh | hh
      · exact absurd hh h.1
      · exact absurd hh h.2
  · refine ⟨?_, fun _ => by simp; omega, fun _ _ hre => ?_, by simp,
      fun hne => absurd rfl hne⟩
    · constructor
      · intro h
        cases h
      · intro h
        rcases hperm with hh | hh
        · exact absurd hh h.1
        · exact absurd hh h.2
    · rw [hrcv] at hre
      cases hre
  · refine ⟨?_, fun _ => by simp; omega, fun _ _ _ => by simp [ha],
      fun _ => ⟨hrcv, ha⟩, fun _ => ⟨rfl, rfl, rfl⟩⟩
    constructor
    · intro h
      cases h
    · intro h
      rcases hperm with hh | hh
      · exact absurd hh h.1
      · exact absurd hh h.2
  · refine ⟨?_, fun _ => by simp; omega, fun _ _ _ => by simp; omega,
      by simp, fun hne => absurd rfl hne⟩
    constructor
    · intro h
      cases h
    · intro h
      rcases hperm with hh | hh
      · exact absurd hh h.1
      · exact absurd hh h.2
  · refine ⟨?_, fun _ => by simp; omega, fun _ _ _ => by simp; omega,
      by simp, fun hne => absurd rfl hne⟩
    constructor
    · intro h
      cases h
    · intro h
      rcases hperm with hh | hh
      · exact absurd hh h.1
      · exact absurd hh h.2

/-- Witness for C5 on the guarded conjuncts: on a read-only descriptor the
send fails EPERM, and with write permission on an empty pool with no waiter
it fails EAGAIN, leaving the state unchanged. -/
theorem mq_trysend_error_conditions_witness :
    (pse51_mq_trysend ⟨O_RDONLY, false⟩ [1] 1 0 mqC1Empty).err
      = some .EPERM ∧
    (pse51_mq_trysend ⟨O_WRONLY, false⟩ [1] 1 0
        ⟨⟨1, 8⟩, [⟨[9], 1, 0⟩], 0, [], [], none, 0, 0⟩).err
      = some .EAGAIN := by
  have h1 := (mq_trysend_error_conditions ⟨O_RDONLY, false⟩ [1] 1 0
      mqC1Empty).1.mpr (by decide)
  have h2 := ((mq_trysend_error_conditions ⟨O_WRONLY, false⟩ [1] 1 0
      ⟨⟨1, 8⟩, [⟨[9], 1, 0⟩], 0, [], [], none, 0, 0⟩).2.2.1
      (Or.inl rfl) (by decide) rfl).mpr rfl
  exact ⟨h1, h2⟩

/-- Empty queue with no waiters and a notifier registered for thread 42 with
signo 33 and value 5, used as the C3 witness scenario. -/
def mqC3State : MqState := ⟨⟨2, 8⟩, [], 2, [], [], some 42, 33, 5⟩

/-- C3: a successful `pse51_mq_trysend` fires the notifier exactly when the
enqueue took the queue from empty to one message, no receiver was woken, and
a registration exists; the firing delivers the registered signo/value to the
registered thread and clears the registration, so any further send out of
the resulting state delivers nothing. -/
theorem mq_trysend_notifier_one_shot :
    ∀ (d : Desc) (buffer : List Nat) (len prio : Nat) (st : MqState),
      (pse51_mq_trysend d buffer len prio st).err = none →
      (((pse51_mq_trysend d buffer len prio st).fired ≠ none) ↔
        (st.receivers = [] ∧ st.target ≠ none ∧ st.queued = [])) ∧
      (∀ t : Nat, st.receivers = [] → st.target = some t → st.queued = [] →
        (pse51_mq_trysend d buffer len prio st).fired
          = some (t, st.si_signo, st.si_value) ∧
        (pse51_mq_trysend d buffer len prio st).st.target = none) ∧
      ((pse51_mq_trysend d buffer len prio st).fired ≠ none →
        ∀ (buffer2 : List Nat) (len2 prio2 : Nat),
          (pse51_mq_trysend d buffer2 len2 prio2
            (pse51_mq_trysend d buffer len prio st).st).fired = none) := by
  intro d buffer len prio st herr
  rcases trysend_cases d buffer len prio st with
    ⟨hp1, hp2, hres⟩ | ⟨hperm, hlen, hres⟩ | ⟨hperm, hlen, r, rs, hrcv, hres⟩ |
    ⟨hperm, hlen, hrcv, ha, hres⟩ | ⟨hperm, hlen, hrcv, ha, hq, t, ht, hres⟩ |
    ⟨hperm, hlen, hrcv, ha, hor, hres⟩ <;> rw [hres] at herr ⊢
  · simp at herr
  · simp at herr
  · refine ⟨by simp [hrcv], ?_, ?_⟩
    · intro t hre _ _
      rw [hrcv] at hre
      cases hre
    · intro hf
      exact absurd rfl hf
  · simp at herr
  · refine ⟨?_, ?_, ?_⟩
    · constructor
      · intro _
        exact ⟨hrcv, by simp [ht], hq⟩
      · intro _
        simp
    · intro t' _ ht' _
      rw [ht] at ht'
      injection ht' with hh
      subst hh
      exact ⟨rfl, rfl⟩
    · intro _ buffer2 len2 prio2
      exact trysend_no_target_no_fire d buffer2 len2 prio2 _ rfl
  · refine ⟨?_, ?_, fun hf => absurd rfl hf⟩
    · constructor
      · intro hf
        exact absurd rfl hf
      · intro h
        exfalso
        rcases hor with hq | ht
        · exact hq h.2.2
        · exact h.2.1 ht
    · intro t hre ht' hq'
      rcases hor with hq | ht
      · exact absurd hq' hq
      · rw [ht] at ht'
        cases ht'

/-- Witness for C3: a send into the empty, receiver-free `mqC3State` delivers
signal 33 with value 5 to thread 42 exactly once; a second send out of the
resulting (now non-empty, cleared) state fires nothing. -/
theorem mq_trysend_notifier_one_shot_witness :
    (pse51_mq_trysend ⟨O_WRONLY, false⟩ [1] 1 0 mqC3State).fired
      = some (42, 33, 5) ∧
    (pse51_mq_trysend ⟨O_WRONLY, false⟩ [2] 1 0
        (pse51_mq_trysend ⟨O_WRONLY, false⟩ [1] 1 0 mqC3State).st).fired
      = none := by
  have h := mq_trysend_notifier_one_shot ⟨O_WRONLY, false⟩ [1] 1 0 mqC3State
      (by decide)
  have h1 := h.2.1 42 rfl rfl rfl
  have h2 := h.2.2 (by rw [h1.1]; simp) [2] 1 0
  exact ⟨h1.1, h2⟩

/-- C4: in the blocking loops, when the try primitive would block (EAGAIN),
a non-blocking descriptor returns would-block, an unblockable context
returns EPERM, and after the sleep the wake cause decides the result:
a used direct handoff returns success (receive side), object-removed
returns EBADF, timed-out returns ETIMEDOUT, interrupted returns EINTR, and
a normal wake goes around the loop to re-attempt the try primitive. -/
theorem mq_blocking_loop_outcomes :
    (∀ (ub : Bool) (c : Option Errno) (w : Wake),
        timedsend_step true ub (some .EAGAIN) c w = .ret (some .EAGAIN) ∧
        timedrcv_step true ub (some .EAGAIN) c w = .ret (some .EAGAIN)) ∧
    (∀ (c : Option Errno) (w : Wake),
        timedsend_step false true (some .EAGAIN) c w = .ret (some .EPERM) ∧
        timedrcv_step false true (some .EAGAIN) c w = .ret (some .EPERM)) ∧
    (timedrcv_step false false (some .EAGAIN) none .used = .ret none) ∧
    (timedsend_step false false (some .EAGAIN) none .removed
        = .ret (some .EBADF) ∧
      timedrcv_step false false (some .EAGAIN) none .removed
        = .ret (some .EBADF)) ∧
    (timedsend_step false false (some .EAGAIN) none .timedout
        = .ret (some .ETIMEDOUT) ∧
      timedrcv_step false false (some .EAGAIN) none .timedout
        = .ret (some .ETIMEDOUT)) ∧
    (timedsend_step false false (some .EAGAIN) none .interrupted
        = .ret (some .EINTR) ∧
      timedrcv_step false false (some .EAGAIN) none .interrupted
        = .ret (some .EINTR)) ∧
    (∀ rest : List (Option Errno × Option Errno × Wake),
        timedsend_inner false false ((some .EAGAIN, none, .normal) :: rest)
          = timedsend_inner false false rest ∧
        timedrcv_inner false false ((some .EAGAIN, none, .normal) :: rest)
          = timedrcv_inner false false rest) := by
  exact ⟨fun ub c w => ⟨rfl, rfl⟩, fun c w => ⟨rfl, rfl⟩, rfl, ⟨rfl, rfl⟩,
    ⟨rfl, rfl⟩, ⟨rfl, rfl⟩, fun rest => ⟨rfl, rfl⟩⟩

/-- C6: with read permission, `pse51_mq_tryrcv` fails EMSGSIZE exactly when the
supplied buffer length is below the queue's configured `mq_msgsize` — the
bound is the configured maximum, independent of any pending message's actual
length — leaving the state unchanged; on success `*lenp` is set to the
received message's stored length and the slot returns to the pool. -/
theorem mq_tryrcv_len_bound :
    ∀ (d : Desc) (lenp : Nat) (st : MqState),
      (d.perms = O_RDONLY ∨ d.perms = O_RDWR) →
      (((pse51_mq_tryrcv d lenp st).err = some .EMSGSIZE) ↔
        lenp < st.attr.mq_msgsize) ∧
      ((pse51_mq_tryrcv d lenp st).err ≠ none →
        (pse51_mq_tryrcv d lenp st).st = st) ∧
      (∀ m rest, st.queued = m :: rest → st.attr.mq_msgsize ≤ lenp →
        (pse51_mq_tryrcv d lenp st).err = none ∧
        (pse51_mq_tryrcv d lenp st).lenp = m.len ∧
        (pse51_mq_tryrcv d lenp st).st.avail = st.avail + 1 ∧
        (pse51_mq_tryrcv d lenp st).st.queued = rest) := by
  intro d lenp st hperm
  have h1 : ¬(d.perms ≠ O_RDONLY ∧ d.perms ≠ O_RDWR) := by
    rcases hperm with h | h <;> simp [h]
  by_cases hlen : lenp < st.attr.mq_msgsize
  · have hres : pse51_mq_tryrcv d lenp st
        = ⟨some .EMSGSIZE, st, [], lenp, 0, false⟩ := by
      simp only [pse51_mq_tryrcv, if_neg h1, if_pos hlen]
    rw [hres]
    exact ⟨by simp [hlen], fun _ => rfl, fun m rest _ hge => by omega⟩
  · cases hq : st.queued with
    | nil =>
        have hres : pse51_mq_tryrcv d lenp st
            = ⟨some .EAGAIN, st, [], lenp, 0, false⟩ := by
          simp only [pse51_mq_tryrcv, if_neg h1, if_neg hlen, hq]
        rw [hres]
        refine ⟨by simp [hlen], fun _ => rfl, fun m rest hq2 _ => ?_⟩
        cases hq2
    | cons m0 rest0 =>
        have hres : pse51_mq_tryrcv d lenp st
            = ⟨none,
               { st with queued := rest0, avail := st.avail + 1,
                         senders := st.senders.tail },
               m0.data, m0.len, m0.prio, !st.senders.isEmpty⟩ := by
          simp only [pse51_mq_tryrcv, if_neg h1, if_neg hlen, hq]
        rw [hres]
        refine ⟨by simp [hlen], fun hne => absurd rfl hne,
          fun m rest hq2 _ => ?_⟩
        injection hq2 with e1 e2
        subst e1
        subst e2
        exact ⟨rfl, rfl, rfl, rfl⟩

/-- Witness for C6: a queue with `mq_msgsize = 8` holding one pending message
of actual length 1 still rejects a receive with a 4-byte buffer (larger than
the message, smaller than the configured bound) as EMSGSIZE, and an 8-byte
buffer receives it, returning the stored length 1 and freeing the slot. -/
theorem mq_tryrcv_len_bound_witness :
    (pse51_mq_tryrcv ⟨O_RDONLY, false⟩ 4
        ⟨⟨1, 8⟩, [⟨[9], 1, 0⟩], 0, [], [], none, 0, 0⟩).err
      = some .EMSGSIZE ∧
    (pse51_mq_tryrcv ⟨O_RDONLY, false⟩ 8
        ⟨⟨1, 8⟩, [⟨[9], 1, 0⟩], 0, [], [], none, 0, 0⟩).lenp = 1 ∧
    (pse51_mq_tryrcv ⟨O_RDONLY, false⟩ 8
        ⟨⟨1, 8⟩, [⟨[9], 1, 0⟩], 0, [], [], none, 0, 0⟩).st.avail = 1 := by
  have h1 := (mq_tryrcv_len_bound ⟨O_RDONLY, false⟩ 4
      ⟨⟨1, 8⟩, [⟨[9], 1, 0⟩], 0, [], [], none, 0, 0⟩ (Or.inl rfl)).1.mpr
      (by decide)
  have h2 := (mq_tryrcv_len_bound ⟨O_RDONLY, false⟩ 8
      ⟨⟨1, 8⟩, [⟨[9], 1, 0⟩], 0, [], [], none, 0, 0⟩ (Or.inl rfl)).2.2
      ⟨[9], 1, 0⟩ [] rfl (by decide)
  exact ⟨h1, h2.2.1, h2.2.2.1⟩

/-- C8 (the code side): the entry checks of `mq_timedsend` and
`mq_timedreceive` use a strict comparison against ONE_BILLION, so an
absolute deadline with `tv_nsec` equal to exactly 10^9 is NOT rejected —
the calls proceed — while any larger or negative `tv_nsec` is rejected.
The spec requires `tv_nsec` within `[0, 10^9)`, so 10^9 should fail. -/
theorem mq_timed_nsec_boundary_accepted :
    mq_timedsend_nsec_invalid 1000000000 = false ∧
    mq_timedreceive_nsec_invalid 1000000000 = false ∧
    ¬ (1000000000 < ONE_BILLION) ∧
    mq_timedsend_nsec_invalid 1000000001 = true ∧
    mq_timedreceive_nsec_invalid 1000000001 = true ∧
    mq_timedsend_nsec_invalid (-1) = true ∧
    mq_timedreceive_nsec_invalid (-1) = true := by
  refine ⟨by decide, by decide, by decide, by decide, by decide, ?_, ?_⟩ <;>
    decide

/-- C7: `mq_notify` with a null sigevent (or SIGEV_NONE) clears the
registration exactly when the caller is the registered target or none
exists; a valid signal spec installs the caller exactly when no registration
exists or the existing one targets the caller (idempotent re-arm); whenever
a different thread is registered the call fails EBUSY with the registration
unchanged. -/
theorem mq_notify_registration_rules :
    ∀ (sigrtmax caller : Nat) (st : MqState),
      ((st.target = none ∨ st.target = some caller) →
        mq_notify sigrtmax caller none st
          = (none, { st with target := none })) ∧
      (∀ t, st.target = some t → t ≠ caller →
        mq_notify sigrtmax caller none st = (some .EBUSY, st)) ∧
      (∀ e : Sigevent, sigev_invalid sigrtmax e = false →
        e.sigev_notify = SIGEV_NONE →
        ((st.target = none ∨ st.target = some caller) →
          mq_notify sigrtmax caller (some e) st
            = (none, { st with target := none })) ∧
        (∀ t, st.target = some t → t ≠ caller →
          mq_notify sigrtmax caller (some e) st = (some .EBUSY, st))) ∧
      (∀ e : Sigevent, sigev_invalid sigrtmax e = false →
        e.sigev_notify ≠ SIGEV_NONE →
        ((st.target = none ∨ st.target = some caller) →
          mq_notify sigrtmax caller (some e) st
            = (none, { st with target := some caller,
                               si_signo := e.sigev_signo,
                               si_value := e.sigev_value })) ∧
        (∀ t, st.target = some t → t ≠ caller →
          mq_notify sigrtmax caller (some e) st = (some .EBUSY, st))) := by
  intro sigrtmax caller st
  refine ⟨?_, ?_, ?_, ?_⟩
  · intro hown
    rcases hown with h | h <;> simp [mq_notify, h]
  · intro t ht hne
    simp [mq_notify, ht, hne]
  · intro e hinv hnone
    constructor
    · intro hown
      rcases hown with h | h <;> simp [mq_notify, hinv, h, hnone]
    · intro t ht hne
      simp [mq_notify, hinv, ht, hne]
  · intro e hinv hsig
    constructor
    · intro hown
      rcases hown with h | h <;> simp [mq_notify, hinv, h, hsig]
    · intro t ht hne
      simp [mq_notify, hinv, ht, hne]

/-- Witness for C7 at concrete states: with thread 8 registered, caller 8
re-arms (installs signo 40, value 9) while caller 5 gets EBUSY and the
registration is untouched; caller 5 clearing an empty registration
succeeds. -/
theorem mq_notify_registration_rules_witness :
    mq_notify 64 8 (some ⟨SIGEV_SIGNAL, 40, 9⟩)
        ⟨⟨2, 8⟩, [], 2, [], [], some 8, 33, 5⟩
      = (none, ⟨⟨2, 8⟩, [], 2, [], [], some 8, 40, 9⟩) ∧
    mq_notify 64 5 (some ⟨SIGEV_SIGNAL, 40, 9⟩)
        ⟨⟨2, 8⟩, [], 2, [], [], some 8, 33, 5⟩
      = (some .EBUSY, ⟨⟨2, 8⟩, [], 2, [], [], some 8, 33, 5⟩) ∧
    mq_notify 64 5 none ⟨⟨2, 8⟩, [], 2, [], [], none, 33, 5⟩
      = (none, ⟨⟨2, 8⟩, [], 2, [], [], none, 33, 5⟩) := by
  refine ⟨?_, ?_, ?_⟩
  · exact ((mq_notify_registration_rules 64 8
      ⟨⟨2, 8⟩, [], 2, [], [], some 8, 33, 5⟩).2.2.2 ⟨SIGEV_SIGNAL, 40, 9⟩
      (by decide) (by decide)).1 (Or.inr rfl)
  · exact ((mq_notify_registration_rules 64 5
      ⟨⟨2, 8⟩, [], 2, [], [], some 8, 33, 5⟩).2.2.2 ⟨SIGEV_SIGNAL, 40, 9⟩
      (by decide) (by decide)).2 8 rfl (by decide)
  · exact (mq_notify_registration_rules 64 5
      ⟨⟨2, 8⟩, [], 2, [], [], none, 33, 5⟩).1 (Or.inl rfl)

/-- C9: `mq_notify` rejects with EINVAL any non-null sigevent whose delivery
mode is neither SIGEV_SIGNAL nor SIGEV_NONE, or whose signal number lies
outside the accepted range [1, SIGRTMAX] (the code folds both bounds into
one unsigned comparison), for every registration state, and returns the
state untouched — the validation precedes any look at the registration. -/
theorem mq_notify_rejects_invalid_spec :
    ∀ (sigrtmax caller : Nat) (st : MqState) (e : Sigevent),
      1 ≤ sigrtmax → sigrtmax < 2 ^ 31 →
      -(2 : Int) ^ 31 ≤ e.sigev_signo → e.sigev_signo < 2 ^ 31 →
      ((e.sigev_notify ≠ SIGEV_SIGNAL ∧ e.sigev_notify ≠ SIGEV_NONE) ∨
        e.sigev_signo < 1 ∨ (sigrtmax : Int) < e.sigev_signo) →
      mq_notify sigrtmax caller (some e) st = (some .EINVAL, st) := by
  intro sigrtmax caller st e hmax1 hmax2 hlo hhi hbad
  have hinv : sigev_invalid sigrtmax e = true := by
    rcases hbad with hmode | hsig
    · simp only [sigev_invalid, Bool.or_eq_true, Bool.and_eq_true, bne_iff_ne]
      exact Or.inl ⟨hmode.1, hmode.2⟩
    · simp only [sigev_invalid, Bool.or_eq_true, Bool.and_eq_true, bne_iff_ne,
        decide_eq_true_eq]
      refine Or.inr ?_
      have h31 : ((2 : Int) ^ 31) = 2147483648 := by norm_num
      rw [h31] at hlo hhi
      have h31n : (2 ^ 31 : Nat) = 2147483648 := by norm_num
      rw [h31n] at hmax2
      omega
  simp [mq_notify, hinv]

/-- Witness for C9: with SIGRTMAX = 64 and thread 9 registered (not the
caller 7), a SIGEV_THREAD-style spec (mode 2) and a spec with signo 0 are
both rejected EINVAL — not EBUSY — leaving the registration in place. -/
theorem mq_notify_rejects_invalid_spec_witness :
    mq_notify 64 7 (some ⟨2, 33, 0⟩)
        ⟨⟨2, 8⟩, [], 2, [], [], some 9, 33, 5⟩
      = (some .EINVAL, ⟨⟨2, 8⟩, [], 2, [], [], some 9, 33, 5⟩) ∧
    mq_notify 64 7 (some ⟨SIGEV_SIGNAL, 0, 0⟩)
        ⟨⟨2, 8⟩, [], 2, [], [], some 9, 33, 5⟩
      = (some .EINVAL, ⟨⟨2, 8⟩, [], 2, [], [], some 9, 33, 5⟩) := by
  constructor
  · exact mq_notify_rejects_invalid_spec 64 7
      ⟨⟨2, 8⟩, [], 2, [], [], some 9, 33, 5⟩ ⟨2, 33, 0⟩
      (by norm_num) (by norm_num) (by norm_num) (by norm_num)
      (Or.inl (by decide))
  · exact mq_notify_rejects_invalid_spec 64 7
      ⟨⟨2, 8⟩, [], 2, [], [], some 9, 33, 5⟩ ⟨SIGEV_SIGNAL, 0, 0⟩
      (by norm_num) (by norm_num) (by norm_num) (by norm_num)
      (Or.inr (Or.inl (by norm_num)))

/-- C10: the message priority is never validated — for every natural priority,
with no MQ_PRIO_MAX-style bound, a send that passes the permission, size and
capacity checks succeeds; the value is used verbatim as the enqueue ordering
key (or handed directly to a waiting receiver), and a subsequent receive
returns it unchanged through the priority output. -/
theorem mq_send_prio_unvalidated :
    ∀ (prio : Nat) (d : Desc) (buffer : List Nat) (len : Nat) (st : MqState),
      (d.perms = O_WRONLY ∨ d.perms = O_RDWR) →
      len ≤ st.attr.mq_msgsize →
      (∀ r rs, st.receivers = r :: rs →
        (pse51_mq_trysend d buffer len prio st).err = none ∧
        (pse51_mq_trysend d buffer len prio st).handoff
          = some ⟨r.tid, buffer.take len, len, prio⟩) ∧
      (st.receivers = [] → 0 < st.avail →
        (pse51_mq_trysend d buffer len prio st).err = none ∧
        (pse51_mq_trysend d buffer len prio st).st.queued
          = insertpqf st.queued ⟨buffer.take len, len, prio⟩) ∧
      (st.receivers = [] → 0 < st.avail → st.queued = [] →
        ∀ (d2 : Desc) (lenp : Nat),
          (d2.perms = O_RDONLY ∨ d2.perms = O_RDWR) →
          st.attr.mq_msgsize ≤ lenp →
          (pse51_mq_tryrcv d2 lenp
              (pse51_mq_trysend d buffer len prio st).st).err = none ∧
          (pse51_mq_tryrcv d2 lenp
              (pse51_mq_trysend d buffer len prio st).st).priop = prio) := by
  intro prio d buffer len st hperm hlen
  rcases trysend_cases d buffer len prio st with
    ⟨hp1, hp2, hres⟩ | ⟨_, hl2, hres⟩ | ⟨_, _, r0, rs0, hrcv, hres⟩ |
    ⟨_, _, hrcv, ha, hres⟩ | ⟨_, _, hrcv, ha, hq, t, ht, hres⟩ |
    ⟨_, _, hrcv, ha, hor, hres⟩
  · exfalso
    rcases hperm with h | h
    · exact hp1 h
    · exact hp2 h
  · exfalso
    omega
  · rw [hres]
    refine ⟨?_, ?_, ?_⟩
    · intro r rs hre
      rw [hrcv] at hre
      injection hre with e1 e2
      subst e1
      exact ⟨rfl, rfl⟩
    · intro h0
      rw [hrcv] at h0
      cases h0
    · intro h0
      rw [hrcv] at h0
      cases h0
  · rw [hres]
    refine ⟨?_, ?_, ?_⟩
    · intro r rs hre
      rw [hrcv] at hre
      cases hre
    · intro _ hpos
      exact absurd hpos (by omega)
    · intro _ hpos
      exact absurd hpos (by omega)
  · rw [hres]
    refine ⟨?_, fun _ _ => ⟨rfl, rfl⟩, ?_⟩
    · intro r rs hre
      rw [hrcv] at hre
      cases hre
    · intro _ _ hq2 d2 lenp hperm2 hlen2
      have h1 : ¬(d2.perms ≠ O_RDONLY ∧ d2.perms ≠ O_RDWR) := by
        rcases hperm2 with h | h <;> simp [h]
      have h2 : ¬(lenp < st.attr.mq_msgsize) := by omega
      have hq1 : insertpqf st.queued ⟨buffer.take len, len, prio⟩
          = [⟨buffer.take len, len, prio⟩] := by
        rw [hq]
        rfl
      simp [pse51_mq_tryrcv, hq1, h1, h2]
  · rw [hres]
    refine ⟨?_, fun _ _ => ⟨rfl, rfl⟩, ?_⟩
    · intro r rs hre
      rw [hrcv] at hre
      cases hre
    · intro _ _ hq2 d2 lenp hperm2 hlen2
      have h1 : ¬(d2.perms ≠ O_RDONLY ∧ d2.perms ≠ O_RDWR) := by
        rcases hperm2 with h | h <;> simp [h]
      have h2 : ¬(lenp < st.attr.mq_msgsize) := by omega
      have hq1 : insertpqf st.queued ⟨buffer.take len, len, prio⟩
          = [⟨buffer.take len, len, prio⟩] := by
        rw [hq2]
        rfl
      simp [pse51_mq_tryrcv, hq1, h1, h2]

/-- Witness for C10: a send at the enormous priority 10^12 (far above any
MQ_PRIO_MAX) succeeds on the empty 4-slot queue and the following receive
reports exactly that priority. -/
theorem mq_send_prio_unvalidated_witness :
    (pse51_mq_trysend mqC1Desc [7] 1 1000000000000 mqC1Empty).err = none ∧
    (pse51_mq_tryrcv mqC1Desc 32
        (pse51_mq_trysend mqC1Desc [7] 1 1000000000000 mqC1Empty).st).priop
      = 1000000000000 := by
  have h := mq_send_prio_unvalidated 1000000000000 mqC1Desc [7] 1 mqC1Empty
      (Or.inr rfl) (by decide)
  have h1 := h.2.1 rfl (by decide)
  have h2 := h.2.2 rfl (by decide) rfl mqC1Desc 32 (Or.inr rfl) (by decide)
  exact ⟨h1.1, h2.2⟩

end PosixMq
